import Mathlib

/-!
Verification of the quote-resolution, caching, movers and padding logic of
`src/app.py` (Market Terminal).  Pure Python float values are modelled as exact
rationals (`ℚ`); every optional/`None`-able value is an `Option`; every
exception path of the source is modelled explicitly (each `try/except` in the
source catches `Exception`, so the embedded functions are total and return the
value the corresponding handler produces).
-/

namespace MarketTerminal

/-- One ticker's market snapshot, the row dict `{symbol, price, change_pct}`
built by `_fetch_tickers` (src/app.py lines 136-137, 147-148, 165-169). -/
structure Quote where
  symbol : String
  price : Option ℚ
  change_pct : Option ℚ
deriving DecidableEq, Repr

/-- Round-half-to-even on a rational, the rounding mode of Python's `round`.
(The source rounds binary floats; we model the values as exact rationals, which
agrees on every value appearing in the claims.) -/
def roundHalfEven (x : ℚ) : ℤ :=
  let f : ℤ := Int.fdiv x.num x.den
  let r : ℚ := x - f
  if r < 1/2 then f
  else if 1/2 < r then f + 1
  else if f % 2 = 0 then f else f + 1

/-- Python `round(x, 2)` over exact rationals. -/
def round2 (x : ℚ) : ℚ := (roundHalfEven (x * 100) : ℚ) / 100

/-- Embeds `_compute_change` (src/app.py lines 116-118):
`if last is None or prev in (None, 0): return None` then
`(last - prev) / prev * 100.0`. -/
def _compute_change (last prev : Option ℚ) : Option ℚ :=
  match last, prev with
  | none, _ => none
  | _, none => none
  | some l, some p => if p = 0 then none else some ((l - p) / p * 100)

/-- The outcome of `yf.download` as observed by `_fetch_tickers`
(src/app.py lines 123-129):
* `fail`: `yf.download` raised (network error, timeout, any exception) —
  control jumps to the outer `except` at line 155;
* `multi closes`: the frame has two column levels (line 129); `closes s` is the
  `dropna`'d close series `df[s]["Close"]`, with `none` modelling the lookup
  raising (symbol absent), which the per-symbol `except` at line 138 turns
  into an all-`None` row;
* `single closes`: the frame is single-level (the `else` at line 140); `none`
  models `df["Close"]` raising, handled by the `except` at line 149. -/
inductive YfResult where
  | fail
  | multi (closes : String → Option (List ℚ))
  | single (closes : Option (List ℚ))

/-- Embeds the per-symbol row construction of the yfinance branches
(src/app.py lines 131-139 and 142-150): `last = closes.iloc[-1]` when
non-empty, `prev = closes.iloc[-2] if len(closes) > 1 else last`,
`chg = _compute_change(last, prev)`, and the row
`{"price": round(last,2) if last else None, "change_pct": round(chg,2) if chg is not None else None}`.
Note the price uses Python truthiness (`if last`), so a last close of exactly
`0` yields `price = None`; the change uses `is not None`. -/
def mkYfQuote (s : String) (closes : Option (List ℚ)) : Quote :=
  match closes with
  | none => ⟨s, none, none⟩
  | some cs =>
    let last : Option ℚ := cs.getLast?
    let prev : Option ℚ := if 1 < cs.length then cs[cs.length - 2]? else last
    let chg : Option ℚ := _compute_change last prev
    ⟨s,
     match last with
     | some l => if l = 0 then none else some (round2 l)
     | none => none,
     chg.map round2⟩

/-- The list built by the two-level-columns loop of `_fetch_tickers`
(src/app.py lines 130-139): one row per requested symbol, in request order. -/
def yfQuotesMulti (closes : String → Option (List ℚ)) (symbols : List String) :
    List Quote :=
  symbols.map fun s => mkYfQuote s (closes s)

/-- Embeds `_stooq_prices` (src/app.py lines 64-113).  `resp` is the parsed
body of the single batched quote request: `none` for a network error, non-200
status or empty body (lines 72-76), otherwise the list of data rows, each as
`(row[0].upper(), _safe_float(row[6]))`; a row too short to index raises inside
the per-row `try` and is skipped (line 90), which is the same as not occurring.
The result maps each requested symbol to its `{"price", "prev"}` pair, last
CSV row winning (line 89); rows whose symbol was not requested raise `KeyError`
into the per-row `except` and are ignored.
Note on `prev`: line 97 calls `client.gather`, a method `httpx.AsyncClient`
does not have, so an `AttributeError` is always raised right after the
price-filling loop and caught by the handler at line 111; consequently the
`"prev"` field is never filled and is `None` for every symbol. -/
def _stooq_prices (resp : Option (List (String × Option ℚ)))
    (symbols : List String) (s : String) : Option ℚ × Option ℚ :=
  match resp with
  | none => (none, none)
  | some rows =>
    if s ∈ symbols then
      (match (rows.filter fun r => r.1 = s).getLast? with
       | some r => r.2
       | none => none, none)
    else (none, none)

/-- The list built by the Stooq fallback loop of `_fetch_tickers`
(src/app.py lines 160-169): for each symbol, `last = stq[s]["price"]`,
`prev = stq[s]["prev"]`, `chg = _compute_change(last, prev)`, and the row
`{"price": round(last,2) if last is not None else None, "change_pct": round(chg,2) if chg is not None else None}`. -/
def stooqQuotes (stq : String → Option ℚ × Option ℚ) (symbols : List String) :
    List Quote :=
  symbols.map fun s =>
    let last := (stq s).1
    let prev := (stq s).2
    ⟨s, last.map round2, (_compute_change last prev).map round2⟩

/-- Embeds `_fetch_tickers` (src/app.py lines 120-170) over an abstract
yfinance outcome `yf` and the Stooq price map `stq` (produced in the source by
`_stooq_prices(symbols)`).  Control flow of the source:
* `yf.download` raising jumps to the outer `except` (line 155) → Stooq
  fallback;
* two-level columns: build one row per symbol (lines 130-139); if no row has a
  numeric price, `raise RuntimeError` (lines 152-153) is caught at line 155 →
  fallback; otherwise return the rows;
* single-level columns ("single symbol case", lines 140-150): `symbols[0]`
  raises `IndexError` on an empty list — in both the inner `try` and its
  `except` — which propagates to the outer handler → fallback; otherwise a
  one-row list is built from `df["Close"]` and the same all-`None`-price check
  applies. -/
def _fetch_tickers (yf : YfResult) (stq : String → Option ℚ × Option ℚ)
    (symbols : List String) : List Quote :=
  let fallback := stooqQuotes stq symbols
  match yf with
  | .fail => fallback
  | .multi closes =>
    let out := yfQuotesMulti closes symbols
    if out.any fun q => q.price.isSome then out else fallback
  | .single closes =>
    match symbols with
    | [] => fallback
    | s :: _ =>
      let out := [mkYfQuote s closes]
      if out.any fun q => q.price.isSome then out else fallback

/-- The sort key of `_compute_movers` (src/app.py line 207), `x["change_pct"]`;
the list is filtered to numeric `change_pct` first, so the `getD 0` default is
never consulted by the source's sort.  The same key with default `0` is what
§4.3 of the spec prescribes for ranking unknown changes. -/
def chgKey (q : Quote) : ℚ := q.change_pct.getD 0

/-- Stable descending sort by `chgKey`, embedding Python's
`valid.sort(key=lambda x: x["change_pct"], reverse=True)` (line 207): Python's
sort is stable, and the stable sort with respect to the total preorder
"key of `a` ≥ key of `b`" is unique, so `List.insertionSort` (stable) with
that relation computes the same list. -/
def sortByChgDesc (l : List Quote) : List Quote :=
  l.insertionSort fun a b => chgKey b ≤ chgKey a

/-- The gainers/losers pair returned by `_compute_movers`
(src/app.py lines 205-208), a record for the dict
`{"gainers": ..., "losers": ...}`. -/
structure Movers where
  gainers : List Quote
  losers : List Quote
deriving DecidableEq, Repr

/-- Embeds `_compute_movers` (src/app.py lines 205-208):
`valid = [r for r in rows if isinstance(r.get("change_pct"), (int, float))]`
(note: the filter tests `change_pct`, not `price`), stable descending sort,
`gainers = valid[:8]`, `losers = list(reversed(valid[-8:]))`.
`valid[-8:]` is `drop (length - 8)` (truncated subtraction: the whole list
when it has at most 8 elements, as in Python). -/
def _compute_movers (rows : List Quote) : Movers :=
  let valid := sortByChgDesc (rows.filter fun r => r.change_pct.isSome)
  ⟨valid.take 8, (valid.drop (valid.length - 8)).reverse⟩

/-- Movers ranking as §4.3 of the spec words it, for comparison with
`_compute_movers`: "Filter to Quotes with known `price`. Sort descending by
`change_pct` (treat unknown `change_pct` as `0.0` for ranking purposes only)."
Gainers first 8, losers last 8 most-negative-first, as in the source. -/
def moversSpec (rows : List Quote) : Movers :=
  let valid := sortByChgDesc (rows.filter fun r => r.price.isSome)
  ⟨valid.take 8, (valid.drop (valid.length - 8)).reverse⟩

/-- One slot of the module-level `CACHE` dict (src/app.py lines 48-53):
`{"ts": ..., "data": ...}`, with `data = None` at process start.  An empty
list stored in `data` is Python-falsy, which the freshness tests
(`if c["data"] and ...`) treat like `None`; the embedding keeps `data` as an
`Option` and lets each endpoint apply its payload's truthiness. -/
structure CacheEntry (α : Type) where
  ts : ℚ
  data : Option α
deriving DecidableEq, Repr

/-- TTL for the `"tickers"` cache key (src/app.py line 54). -/
def TTL_tickers : ℚ := 10

/-- TTL for the `"movers"` cache key (src/app.py line 54). -/
def TTL_movers : ℚ := 30

/-- Embeds the padding applied by `api_tickers` (src/app.py lines 372-376):
`data = rows`; `if len(rows) < 25: data = rows * (25 // max(1,len(rows)) + 1);
data = data[:max(25, len(rows))]`. -/
def pad25 (rows : List Quote) : List Quote :=
  if rows.length < 25 then
    ((List.replicate (25 / max 1 rows.length + 1) rows).flatten).take
      (max 25 rows.length)
  else rows

/-- Embeds one request to `GET /api/tickers` (src/app.py lines 366-378) as a
step function on the `"tickers"` cache slot.  `now` is the value of `_now()`
at line 368; `rows` is what `_fetch_tickers(WATCHLIST)` returns during this
request.  The returned `Bool` records whether the handler executed the refresh
(line 371) — `false` means the cached payload was served unchanged.  The
freshness test is the source's `if c["data"] and now - c["ts"] < TTL["tickers"]`
(line 369), where an empty cached list is falsy. -/
def api_tickers (c : CacheEntry (List Quote)) (now : ℚ) (rows : List Quote) :
    List Quote × Bool × CacheEntry (List Quote) :=
  match c.data with
  | some d =>
    if d ≠ [] ∧ now - c.ts < TTL_tickers then (d, false, c)
    else
      let data := pad25 rows
      (data, true, ⟨now, some data⟩)
  | none =>
    let data := pad25 rows
    (data, true, ⟨now, some data⟩)

/-- Embeds one request to `GET /api/movers` (src/app.py lines 380-388),
analogous to `api_tickers`.  The cached payload is the two-key dict built by
`_compute_movers`, which is always Python-truthy, so the freshness test
reduces to the timestamp comparison whenever a payload exists. -/
def api_movers (c : CacheEntry Movers) (now : ℚ) (rows : List Quote) :
    Movers × Bool × CacheEntry Movers :=
  match c.data with
  | some d =>
    if now - c.ts < TTL_movers then (d, false, c)
    else
      let data := _compute_movers rows
      (data, true, ⟨now, some data⟩)
  | none =>
    let data := _compute_movers rows
    (data, true, ⟨now, some data⟩)

/-- The fixed watchlist (src/app.py lines 38-44). -/
def WATCHLIST : List String :=
  ["AAPL","MSFT","NVDA","AMZN","META","GOOGL","TSLA","AVGO","AMD","NFLX","ADBE",
   "INTC","CSCO","QCOM","TXN","CRM","PYPL","ORCL","IBM","SNOW","ABNB","SHOP",
   "JPM","BAC","WFC","GS","MS","V","MA","AXP","BRK-B",
   "KO","PEP","PG","MCD","COST","HD","LOW","DIS","NKE",
   "XOM","CVX","CAT","BA","UNH","LLY","MRK","ABBV","UPS","FDX","UBER","LYFT"]

/-- The symbol batches of the outbound Stooq quote requests
(src/app.py line 69): `",".join(s.lower() for s in symbols)` builds one
request URL carrying every input symbol, so the batches are the single whole
list; no chunking occurs anywhere in the resolver. -/
def stooqRequestBatches (symbols : List String) : List (List String) :=
  [symbols.map String.toLower]

/-- The ticker batches of the outbound yfinance requests
(src/app.py line 124): `tickers=" ".join(symbols)` is one `yf.download` call
carrying every input symbol — again a single unchunked batch. -/
def yfRequestBatches (symbols : List String) : List (List String) :=
  [symbols]

/-- Modelled from the spec: the performance-window calculator behind
`GET /api/metrics` is not part of `src/` (this repository is a set of
near-duplicate iterations and `src/app.py` has no `/api/metrics` route).
Per §4.4 and §8 P6 of the spec: given a time-ordered price series and a
trading-day offset `n`, compute the percent change between the price `n`
trading days ago and the latest price; "If the series has fewer than N+1
points, result is unknown (not zero, not an error)." -/
def perfWindow (series : List ℚ) (n : ℕ) : Option ℚ :=
  if series.length < n + 1 then none
  else
    match series.getLast?, series[series.length - 1 - n]? with
    | some last, some base =>
      if base = 0 then none else some ((last - base) / base * 100)
    | _, _ => none

/-! ## Helper definitions for the claims -/

/-- The §3 invariant of the spec, as a Boolean predicate on a `Quote`:
`change_pct is not None` implies `price is not None`. -/
def quoteInv (q : Quote) : Bool := q.change_pct.isNone || q.price.isSome

/-- Hypothesis of the amended C1: the first provider never reports a last
close of exactly `0`.  (The source maps a last close of `0` to `price = None`
by Python truthiness at lines 136/147 while still computing `change_pct` from
it, which is the one way the invariant can break.) -/
def noZeroLast : YfResult → Prop
  | .fail => True
  | .multi closes => ∀ s cs, closes s = some cs → cs.getLast? ≠ some 0
  | .single closes => ∀ cs, closes = some cs → cs.getLast? ≠ some 0

/-- Hypothesis of the amended C2: a single-level-columns response only occurs
when at most one symbol was requested (which is how yfinance behaves; the
source's `else` branch at line 140 assumes it, emitting a single row). -/
def singleShapeOk : YfResult → List String → Prop
  | .single _, symbols => symbols.length ≤ 1
  | _, _ => True

/-- The concrete Quote list of spec §8 P5:
`[{A, 5.0}, {B, -3.0}, {C, 0.0}, {D, None-price}]`. -/
def exampleRows : List Quote :=
  [⟨"A", some 1, some 5⟩, ⟨"B", some 1, some (-3)⟩,
   ⟨"C", some 1, some 0⟩, ⟨"D", none, none⟩]

/-! ## Helper lemmas -/

lemma round2_zero : round2 0 = 0 := by
  norm_num [round2, roundHalfEven]

lemma mkYfQuote_symbol (s : String) (c : Option (List ℚ)) :
    (mkYfQuote s c).symbol = s := by
  cases c <;> rfl

lemma stooqQuotes_map_symbol (stq : String → Option ℚ × Option ℚ)
    (symbols : List String) :
    (stooqQuotes stq symbols).map Quote.symbol = symbols := by
  induction symbols with
  | nil => rfl
  | cons s t ih => simpa [stooqQuotes] using congrArg (List.cons s) ih

lemma yfQuotesMulti_map_symbol (closes : String → Option (List ℚ))
    (symbols : List String) :
    (yfQuotesMulti closes symbols).map Quote.symbol = symbols := by
  induction symbols with
  | nil => rfl
  | cons s t ih =>
    simpa [yfQuotesMulti, mkYfQuote_symbol] using congrArg (List.cons s) ih

lemma quoteInv_mkYfQuote (s : String) (cs : List ℚ)
    (h : cs.getLast? ≠ some 0) : quoteInv (mkYfQuote s (some cs)) = true := by
  unfold mkYfQuote quoteInv
  cases hl : cs.getLast? with
  | none => simp [hl, _compute_change]
  | some l =>
    have hne : l ≠ 0 := fun h0 => h (h0 ▸ hl)
    simp [hl, hne]

lemma quoteInv_stooqQuotes (stq : String → Option ℚ × Option ℚ)
    (symbols : List String) :
    ∀ q ∈ stooqQuotes stq symbols, quoteInv q = true := by
  intro q hq
  simp only [stooqQuotes, List.mem_map] at hq
  obtain ⟨s, -, rfl⟩ := hq
  cases h1 : (stq s).1 <;> cases h2 : (stq s).2 <;>
    simp [quoteInv, _compute_change, h1, h2]

/-! ## Claims -/

/-- C1 (amended): for every Quote returned by the resolver, a known
`change_pct` implies a known `price`, PROVIDED the first provider never
reports a last close of exactly `0`.  Unamended, the claim fails: see
`C1_counterexample` — a last close of `0` is Python-falsy, so line 136 nulls
the price while `_compute_change` still produced a change from it.  On the
Stooq fallback path the invariant holds unconditionally (line 167 tests
`is not None`, not truthiness). -/
theorem C1_invariant (yf : YfResult) (stq : String → Option ℚ × Option ℚ)
    (symbols : List String) (h : noZeroLast yf) :
    (_fetch_tickers yf stq symbols).all quoteInv = true := by
  rw [List.all_eq_true]
  intro q hq
  cases yf with
  | fail => exact quoteInv_stooqQuotes _ _ q hq
  | multi closes =>
    simp only [_fetch_tickers] at hq
    split at hq
    · simp only [yfQuotesMulti, List.mem_map] at hq
      obtain ⟨s, -, rfl⟩ := hq
      cases hc : closes s with
      | none => simp [mkYfQuote, quoteInv, hc]
      | some cs => exact quoteInv_mkYfQuote s cs (h s cs hc)
    · exact quoteInv_stooqQuotes _ _ q hq
  | single closes =>
    cases symbols with
    | nil => exact quoteInv_stooqQuotes _ _ q hq
    | cons s rest =>
      simp only [_fetch_tickers] at hq
      split at hq
      · rw [List.mem_singleton] at hq
        subst hq
        cases hc : closes with
        | none => simp [mkYfQuote, quoteInv, hc]
        | some cs => exact quoteInv_mkYfQuote s cs (h cs hc)
      · exact quoteInv_stooqQuotes _ _ q hq

/-- Witness for C1: a concrete run satisfying the hypothesis. -/
theorem C1_invariant_witness :
    noZeroLast (.multi fun _ => some [5, 4]) ∧
      (_fetch_tickers (.multi fun _ => some [5, 4]) (fun _ => (none, none))
        ["AAPL"]).all quoteInv = true := by
  have h : noZeroLast (.multi fun _ => some [5, 4]) := by
    intro s cs hcs
    injection hcs with hcs
    subst hcs
    decide
  exact ⟨h, C1_invariant _ _ _ h⟩

/-- C1 counterexample: with a yfinance batch whose series for `"A"` is
`[10, 0]` (last close exactly `0`, previous `10`) and `"B"` priced normally,
the resolver returns `{A, price: None, change_pct: -100.0}` — a known
`change_pct` with an unknown `price`, violating the invariant as stated. -/
theorem C1_counterexample :
    ((_fetch_tickers
        (.multi fun s => if s = "A" then some [10, 0]
          else if s = "B" then some [5, 5] else none)
        (fun _ => (none, none)) ["A", "B"]).all quoteInv) = false := by
  have heval :
      _fetch_tickers
        (.multi fun s => if s = "A" then some [10, 0]
          else if s = "B" then some [5, 5] else none)
        (fun _ => (none, none)) ["A", "B"] =
      [⟨"A", none, some (-100)⟩, ⟨"B", some 5, some 0⟩] := by
    simp [_fetch_tickers, yfQuotesMulti, mkYfQuote, _compute_change]
    norm_num [round2, roundHalfEven]
  rw [heval]
  decide

/-- C2 (amended): the resolver returns exactly one Quote per input symbol, in
input order (stated as: the output's symbols are the input list), PROVIDED a
single-level-columns first-provider response only occurs when at most one
symbol was requested.  Unamended, the claim fails: see `C2_counterexample` —
the source's "single symbol case" branch (lines 140-150) emits exactly one row
whatever the input length, and when that row has a usable price it is returned
as the whole result. -/
theorem C2_completeness (yf : YfResult) (stq : String → Option ℚ × Option ℚ)
    (symbols : List String) (h : singleShapeOk yf symbols) :
    (_fetch_tickers yf stq symbols).map Quote.symbol = symbols := by
  cases yf with
  | fail => exact stooqQuotes_map_symbol stq symbols
  | multi closes =>
    simp only [_fetch_tickers]
    split
    · exact yfQuotesMulti_map_symbol closes symbols
    · exact stooqQuotes_map_symbol stq symbols
  | single closes =>
    cases symbols with
    | nil => exact stooqQuotes_map_symbol stq []
    | cons s rest =>
      cases rest with
      | nil =>
        simp only [_fetch_tickers]
        split
        · simp [mkYfQuote_symbol]
        · exact stooqQuotes_map_symbol stq [s]
      | cons s2 t =>
        exact absurd h (by simp [singleShapeOk])

/-- Witness for C2: a concrete single-symbol run satisfying the hypothesis. -/
theorem C2_completeness_witness :
    singleShapeOk (.single (some [7])) ["A"] ∧
      (_fetch_tickers (.single (some [7])) (fun _ => (none, none))
        ["A"]).map Quote.symbol = ["A"] := by
  have h : singleShapeOk (.single (some [7])) ["A"] := by
    show ["A"].length ≤ 1
    decide
  exact ⟨h, C2_completeness _ _ _ h⟩

/-- C2 counterexample: a single-level-columns response carrying a usable close
series, received for the two-symbol request `["A", "B"]`, makes the resolver
return a single Quote (for `"A"` only) — not two Quotes — omitting the
requested symbol `"B"`. -/
theorem C2_counterexample :
    (_fetch_tickers (.single (some [7])) (fun _ => (none, none))
        ["A", "B"]).map Quote.symbol ≠ ["A", "B"] := by
  have heval :
      _fetch_tickers (.single (some [7])) (fun _ => (none, none)) ["A", "B"] =
        [⟨"A", some 7, some 0⟩] := by
    simp [_fetch_tickers, mkYfQuote, _compute_change]
    norm_num [round2, roundHalfEven]
  rw [heval]
  decide

/-- C3 (amended): the "missing change figure defaults to 0.0" normalization
holds on the primary (yfinance) path — a single-point close series `[c]` with
`c ≠ 0` yields `change_pct = 0.0` because `prev` defaults to `last`
(line 134), and the spec's AAPL/ZZZZINVALID scenario holds verbatim when the
stub answers as the primary provider — but NOT on the Stooq fallback path,
where a known price with no previous close yields `change_pct = None`
(see `C3_counterexample`).  Conjuncts: (1) the scenario; (2) the general
single-point-series rule on the primary path; (3) the general behaviour of the
fallback path for a priced symbol with no previous close. -/
theorem C3_normalization :
    _fetch_tickers (.multi fun s => if s = "AAPL" then some [150] else some [])
        (fun _ => (none, none)) ["AAPL", "ZZZZINVALID"] =
      [⟨"AAPL", some 150, some 0⟩, ⟨"ZZZZINVALID", none, none⟩] ∧
    (∀ (s : String) (c : ℚ),
      (mkYfQuote s (some [c])).change_pct = if c = 0 then none else some 0) ∧
    (∀ (s : String) (p : ℚ),
      stooqQuotes (fun _ => (some p, none)) [s] = [⟨s, some (round2 p), none⟩]) := by
  refine ⟨?_, ?_, ?_⟩
  · simp [_fetch_tickers, yfQuotesMulti, mkYfQuote, _compute_change]
    norm_num [round2, roundHalfEven]
  · intro s c
    by_cases hc : c = 0 <;>
      simp [mkYfQuote, _compute_change, hc, round2_zero]
  · intro s p
    simp [stooqQuotes, _compute_change]

/-- C3 counterexample: the first provider fails, Stooq prices AAPL at `150`
but reports no previous close (its `prev` is in fact never filled, since
line 97 always raises `AttributeError`); the resolver returns
`{AAPL, price: 150.0, change_pct: None}` — a known price whose missing change
figure was NOT normalized to `0.0` as the claim requires. -/
theorem C3_counterexample :
    _fetch_tickers .fail
        (fun s => if s = "AAPL" then (some 150, none) else (none, none))
        ["AAPL"] = [⟨"AAPL", some 150, none⟩] := by
  simp [_fetch_tickers, stooqQuotes, _compute_change]
  norm_num [round2, roundHalfEven]

/-- C4 (confirmed): when the first provider's batch has every price `None`,
its result is discarded (the source raises at line 153, caught at line 155)
and the output is exactly the Quote list built from the Stooq response;
conversely, one non-null price suffices for the first provider's rows to be
returned as-is, with no cross-filling from Stooq. -/
theorem C4_fallback (closes : String → Option (List ℚ))
    (stq : String → Option ℚ × Option ℚ) (symbols : List String) :
    ((∀ q ∈ yfQuotesMulti closes symbols, q.price = none) →
      _fetch_tickers (.multi closes) stq symbols = stooqQuotes stq symbols) ∧
    ((∃ q ∈ yfQuotesMulti closes symbols, q.price ≠ none) →
      _fetch_tickers (.multi closes) stq symbols = yfQuotesMulti closes symbols) := by
  constructor
  · intro h
    simp only [_fetch_tickers]
    rw [if_neg]
    simp only [List.any_eq_true, not_exists, not_and]
    intro q hq
    simp [h q hq]
  · rintro ⟨q, hq, hne⟩
    simp only [_fetch_tickers]
    rw [if_pos]
    exact List.any_eq_true.mpr ⟨q, hq, by simpa [Option.isSome_iff_ne_none] using hne⟩

/-- Witness for C4: an all-`None` first-provider batch falls through to the
Stooq-built list. -/
theorem C4_fallback_witness :
    (∀ q ∈ yfQuotesMulti (fun _ => some []) ["A"], q.price = none) ∧
      _fetch_tickers (.multi fun _ => some []) (fun _ => (some 3, some 2)) ["A"] =
        stooqQuotes (fun _ => (some 3, some 2)) ["A"] := by
  have h : ∀ q ∈ yfQuotesMulti (fun _ => some []) ["A"], q.price = none := by
    decide
  exact ⟨h, (C4_fallback _ _ _).1 h⟩

lemma pad25_length (rows : List Quote) (h : rows ≠ []) :
    (pad25 rows).length = max 25 rows.length := by
  have hpos : 0 < rows.length := List.length_pos.mpr h
  unfold pad25
  split
  · rename_i hlt
    rw [List.length_take, List.length_flatten, List.map_replicate,
      List.sum_replicate, smul_eq_mul]
    have hmax1 : max 1 rows.length = rows.length := by omega
    rw [hmax1]
    have hdm := Nat.div_add_mod 25 rows.length
    have hmod := Nat.mod_lt 25 hpos
    have : 25 < (25 / rows.length + 1) * rows.length := by
      nlinarith [hdm, hmod]
    omega
  · omega

lemma pad25_ne_nil (rows : List Quote) (h : rows ≠ []) : pad25 rows ≠ [] := by
  have := pad25_length rows h
  intro hnil
  rw [hnil] at this
  simp at this
  omega

/-- C5 (confirmed): for the cached endpoints, a call while the last refresh is
less than `ttl_seconds` old returns the stored payload unchanged with no
second invocation of the refresh path (the `Bool` component of the embedded
handlers records whether line 371 / line 385 ran), and a call once
`ttl_seconds` has elapsed runs the refresh exactly once and stores its result
under the current timestamp.  The `rows ≠ []` hypothesis reflects that the
handlers always cache a Python-truthy payload: `/api/tickers` stores one row
per watchlist symbol (51+ rows, padded to ≥ 25), and the movers dict always
has its two keys, so the truthiness part of the freshness test never fails on
a stored payload. -/
theorem C5_cache (ts0 t0 t1 : ℚ) (rows rows2 : List Quote) (m : Movers)
    (hrows : rows ≠ []) :
    (api_tickers ⟨ts0, none⟩ t0 rows =
      (pad25 rows, true, ⟨t0, some (pad25 rows)⟩)) ∧
    (t1 - t0 < TTL_tickers →
      api_tickers ⟨t0, some (pad25 rows)⟩ t1 rows2 =
        (pad25 rows, false, ⟨t0, some (pad25 rows)⟩)) ∧
    (TTL_tickers ≤ t1 - t0 →
      api_tickers ⟨t0, some (pad25 rows)⟩ t1 rows2 =
        (pad25 rows2, true, ⟨t1, some (pad25 rows2)⟩)) ∧
    (t1 - t0 < TTL_movers →
      api_movers ⟨t0, some m⟩ t1 rows2 = (m, false, ⟨t0, some m⟩)) ∧
    (TTL_movers ≤ t1 - t0 →
      api_movers ⟨t0, some m⟩ t1 rows2 =
        (_compute_movers rows2, true, ⟨t1, some (_compute_movers rows2)⟩)) := by
  have hpad := pad25_ne_nil rows hrows
  refine ⟨rfl, ?_, ?_, ?_, ?_⟩
  · intro hfresh
    simp only [api_tickers]
    rw [if_pos ⟨hpad, hfresh⟩]
  · intro hstale
    simp only [api_tickers]
    rw [if_neg]
    rintro ⟨-, hlt⟩
    exact absurd hstale (not_le.mpr hlt)
  · intro hfresh
    simp only [api_movers]
    rw [if_pos hfresh]
  · intro hstale
    simp only [api_movers]
    rw [if_neg (not_lt.mpr hstale)]

/-- Witness for C5: a first call at time 0 populates the cache; a second call
at time 5 (within the 10-second tickers TTL) serves the identical payload
without refreshing. -/
theorem C5_cache_witness :
    (api_tickers ⟨0, none⟩ 0 [⟨"A", none, none⟩] =
      (pad25 [⟨"A", none, none⟩], true, ⟨0, some (pad25 [⟨"A", none, none⟩])⟩)) ∧
    (api_tickers ⟨0, some (pad25 [⟨"A", none, none⟩])⟩ 5 [] =
      (pad25 [⟨"A", none, none⟩], false, ⟨0, some (pad25 [⟨"A", none, none⟩])⟩)) := by
  have h := C5_cache 0 0 5 [⟨"A", none, none⟩] [] ⟨[], []⟩ (by simp)
  exact ⟨h.1, h.2.1 (by norm_num [TTL_tickers])⟩

/-- C6 (amended): the movers ranking keeps exactly the Quotes with a KNOWN
`change_pct` — not, as the claim states, those with a known `price` (the
filter at line 206 tests `change_pct`; see `C6_counterexample`) — sorts them
descending by `change_pct`, takes the first 8 as gainers and the last 8,
most-negative-first, as losers.  On the spec's own example the two filters
agree (D has both fields unknown), so gainers(top 1) = `[A]`,
losers(top 1) = `[B]` and `D` is excluded, as stated. -/
theorem C6_movers :
    (∀ rows : List Quote,
      ((_compute_movers rows).gainers ++ (_compute_movers rows).losers).all
        (fun q => q.change_pct.isSome) = true) ∧
    (_compute_movers exampleRows).gainers.head? = some ⟨"A", some 1, some 5⟩ ∧
    (_compute_movers exampleRows).losers.head? = some ⟨"B", some 1, some (-3)⟩ ∧
    ((_compute_movers exampleRows).gainers ++
      (_compute_movers exampleRows).losers).all
        (fun q => q.symbol != "D") = true := by
  refine ⟨?_, by decide, by decide, by decide⟩
  intro rows
  rw [List.all_eq_true]
  have hmem : ∀ q ∈ sortByChgDesc (rows.filter fun r => r.change_pct.isSome),
      q.change_pct.isSome = true := by
    intro q hq
    rw [sortByChgDesc, List.mem_insertionSort] at hq
    exact (List.mem_filter.mp hq).2
  intro q hq
  rw [List.mem_append] at hq
  rcases hq with hq | hq
  · exact hmem q (List.mem_of_mem_take hq)
  · exact hmem q (List.mem_of_mem_drop (List.mem_reverse.mp hq))

/-- C6 counterexample: `moversSpec` is the ranking exactly as the claim words
it (filter on known `price`, unknown `change_pct` ranked as `0.0`).  On a row
set containing `{E, price: 10.0, change_pct: None}` the code's ranking differs
from it: the code's filter (line 206) drops `E` although its price is known. -/
theorem C6_counterexample :
    _compute_movers [⟨"A", some 10, some 5⟩, ⟨"E", some 10, none⟩] ≠
      moversSpec [⟨"A", some 10, some 5⟩, ⟨"E", some 10, none⟩] := by
  decide

/-- C7 (confirmed): the all-providers-failed case.  Every exception path of
`_fetch_tickers` and `_stooq_prices` is caught in the source (lines 90, 108,
111, 138, 149, 155), so the embedded resolver is a total function; when the
first provider raises and the Stooq request fails (network error / non-200 /
empty body, `resp = none`), the resolver still returns one Quote per requested
symbol, in order, with both `price` and `change_pct` unknown — the endpoint
can therefore always serve a 200 payload. -/
theorem C7_never_raises (symbols : List String) :
    _fetch_tickers .fail (_stooq_prices none symbols) symbols =
      symbols.map fun s => ⟨s, none, none⟩ := by
  simp [_fetch_tickers, stooqQuotes, _stooq_prices, _compute_change]

/-- C8 (amended): the resolver does NOT chunk its outbound requests: each
provider is queried with exactly one batch carrying the full input symbol
list, and for the watchlist the application actually uses (52 symbols, not
51 as the claim counts) that single batch carries 52 symbols — above the
35-50-per-request bound the claim asserts is respected. -/
theorem C8_chunking (symbols : List String) :
    (yfRequestBatches symbols).length = 1 ∧
    (stooqRequestBatches symbols).length = 1 ∧
    (yfRequestBatches WATCHLIST).map List.length = [52] ∧
    (stooqRequestBatches WATCHLIST).map List.length = [52] :=
  ⟨rfl, rfl, by decide, by decide⟩

/-- C8 counterexample: on the watchlist, neither provider's single outbound
batch respects the ≤ 50-symbols-per-request bound. -/
theorem C8_counterexample :
    ((yfRequestBatches WATCHLIST).all fun b => decide (b.length ≤ 50)) = false ∧
    ((stooqRequestBatches WATCHLIST).all fun b => decide (b.length ≤ 50)) = false := by
  decide

/-- C9 (confirmed, spec-modelled): the performance-window calculator returns
unknown — not zero and not an error — whenever the price series has fewer
than `n + 1` points for an `n`-trading-day window. -/
theorem C9_perf_window (series : List ℚ) (n : ℕ)
    (h : series.length < n + 1) : perfWindow series n = none := by
  simp [perfWindow, h]

/-- Witness for C9: the spec's P6 instance — a series of exactly 5 points
queried for the 5-trading-day window (which needs 6 points) yields unknown. -/
theorem C9_perf_window_witness :
    ([1, 2, 3, 4, 5] : List ℚ).length < 5 + 1 ∧
      perfWindow [1, 2, 3, 4, 5] 5 = none :=
  ⟨by decide, C9_perf_window [1, 2, 3, 4, 5] 5 (by decide)⟩

lemma flatten_replicate_getElem {α : Type} (l : List α) (k i : ℕ)
    (h : i < k * l.length) :
    ((List.replicate k l).flatten)[i]? = l[i % l.length]? := by
  induction k generalizing i with
  | zero => omega
  | succ k ih =>
    rw [List.replicate_succ, List.flatten_cons]
    by_cases hi : i < l.length
    · rw [List.getElem?_append_left hi, Nat.mod_eq_of_lt hi]
    · push_neg at hi
      have hsucc : (k + 1) * l.length = k * l.length + l.length :=
        Nat.succ_mul k l.length
      rw [List.getElem?_append_right hi, ih (i - l.length) (by omega),
        Nat.mod_eq_sub_mod hi]

lemma pad25_getElem (rows : List Quote) (h1 : rows ≠ [])
    (h2 : rows.length < 25) (i : ℕ) (hi : i < 25) :
    (pad25 rows)[i]? = rows[i % rows.length]? := by
  have hpos : 0 < rows.length := List.length_pos.mpr h1
  unfold pad25
  rw [if_pos h2]
  have hmax25 : max 25 rows.length = 25 := by omega
  have hmax1 : max 1 rows.length = rows.length := by omega
  rw [hmax25, hmax1, List.getElem?_take_of_lt hi]
  apply flatten_replicate_getElem
  have hdm := Nat.div_add_mod 25 rows.length
  have hmod := Nat.mod_lt 25 hpos
  have h26 : 25 < (25 / rows.length + 1) * rows.length := by nlinarith
  omega

/-- C10 (confirmed): when the resolver hands `GET /api/tickers` fewer than 25
rows (and at least one — the resolver always yields at least one row for the
non-empty watchlist), the handler pads the response by cycling through the
resolved rows (`data[i] = rows[i mod len(rows)]`) up to exactly 25 entries, so
the response can exceed the resolved list and repeat symbols; the padded list
— not the resolver output — is stored in the cache and served unchanged by
subsequent fresh-cache calls. -/
theorem C10_padding (ts0 t : ℚ) (rows : List Quote) (h1 : rows ≠ [])
    (h2 : rows.length < 25) :
    api_tickers ⟨ts0, none⟩ t rows =
      (pad25 rows, true, ⟨t, some (pad25 rows)⟩) ∧
    (pad25 rows).length = 25 ∧
    (∀ i, i < 25 → (pad25 rows)[i]? = rows[i % rows.length]?) ∧
    (∀ (t2 : ℚ) (rows2 : List Quote), t2 - t < TTL_tickers →
      api_tickers ⟨t, some (pad25 rows)⟩ t2 rows2 =
        (pad25 rows, false, ⟨t, some (pad25 rows)⟩)) := by
  refine ⟨rfl, ?_, fun i hi => pad25_getElem rows h1 h2 i hi, ?_⟩
  · rw [pad25_length rows h1]
    omega
  · intro t2 rows2 hfresh
    simp only [api_tickers]
    rw [if_pos ⟨pad25_ne_nil rows h1, hfresh⟩]

/-- Witness for C10: two resolved rows are cycled out to 25 response entries;
entry 3 repeats row 1. -/
theorem C10_padding_witness :
    ([⟨"A", none, none⟩, ⟨"B", none, none⟩] : List Quote) ≠ [] ∧
    ([⟨"A", none, none⟩, ⟨"B", none, none⟩] : List Quote).length < 25 ∧
    (pad25 [⟨"A", none, none⟩, ⟨"B", none, none⟩]).length = 25 ∧
    (pad25 [⟨"A", none, none⟩, ⟨"B", none, none⟩])[3]? =
      ([⟨"A", none, none⟩, ⟨"B", none, none⟩] : List Quote)[1]? := by
  have h := C10_padding 0 0 [⟨"A", none, none⟩, ⟨"B", none, none⟩]
    (by simp) (by simp)
  exact ⟨by simp, by simp, h.2.1, h.2.2.1 3 (by norm_num)⟩

end MarketTerminal
